import Mathlib

/-!
Verification of the LCP (Local Chat Protocol) node, a shallow embedding of the
repository's `core/protocol.py`, `core/discovery.py` and `core/messaging.py`.

Modelling conventions:
* Python `bytes` are `List (Fin 256)`.
* Python exceptions are `Except PyError _`; every `raise` in the source maps to
  a `.error` of the corresponding kind.
* Python `dict`s are association lists with Python's update semantics
  (`dictSet`): assigning to an existing key replaces its value in place,
  assigning to a fresh key appends at the end.
* Network effects (whether a `sendto` succeeded, which ACKs arrived, the bytes
  readable from a TCP stream) are oracle parameters of the embedded functions.
* Timestamps are abstract `Nat`s; IP addresses are `String`s; Python `str`
  values derived from UID bytes are kept as their UTF-8 byte lists.
-/

/-- A single byte. -/
abbrev Byte := Fin 256

/-- Python `bytes` values. -/
abbrev Bytes := List Byte

/-- The kinds of Python exceptions the embedded code can raise.
`valueError` covers `ValueError` (malformed frames, unknown peer),
`timeoutError` is `TimeoutError` (the spec's AckTimeout),
`connectionError` is `ConnectionError` (the spec's Network),
`attributeError` is `AttributeError` (attribute lookup failure). -/
inductive PyError where
  | valueError
  | timeoutError
  | connectionError
  | attributeError
deriving DecidableEq, Repr

/-- `Except.isOk` as a plain Bool. -/
def exceptOk {α : Type} (e : Except PyError α) : Bool :=
  match e with
  | .ok _ => true
  | .error _ => false

/-- Python `int.to_bytes(len, 'big')`: big-endian encoding on `len` bytes. -/
def natToBytesBE : Nat → Nat → Bytes
  | 0, _ => []
  | len + 1, n => natToBytesBE len (n / 256) ++ [⟨n % 256, Nat.mod_lt _ (by norm_num)⟩]

/-- Python `int.from_bytes(data, 'big')`. -/
def bytesToNatBE (l : Bytes) : Nat :=
  l.foldl (fun acc b => 256 * acc + b.val) 0

/-- Python `bytes.rstrip(b'\x00')`: remove trailing zero bytes. -/
def rstripZeros (l : Bytes) : Bytes :=
  (l.reverse.dropWhile (fun b => decide (b = 0))).reverse

/-- Python `bytes.rstrip(b' ')`: remove trailing 0x20 bytes. -/
def rstripSpaces (l : Bytes) : Bytes :=
  (l.reverse.dropWhile (fun b => decide (b = 32))).reverse

/-- Python `bytes.ljust(n, b'\x00')`. -/
def ljust (l : Bytes) (n : Nat) : Bytes :=
  l ++ List.replicate (n - l.length) 0

/-- `BROADCAST_UID = b'\xff' * 20` from `core/protocol.py`. -/
def broadcastUid : Bytes := List.replicate 20 (255 : Byte)

/-- The decoded form of a 100-byte LCP header, as returned by `unpack_header`
in `core/protocol.py` (a Python dict with these five entries). -/
structure Header where
  user_from : Bytes
  user_to : Bytes
  op_code : Nat
  body_id : Nat
  body_len : Nat
deriving DecidableEq, Repr

/-- `pack_header` from `core/protocol.py`: validates `op_code ∈ {0,1,2}`,
`0 ≤ body_id ≤ 255`, `0 ≤ body_len ≤ 2^64 - 1`, then lays out
`from20 ‖ to20 ‖ op ‖ body_id ‖ body_len_be8 ‖ 50 zero bytes`; the UID fields
are `ljust(20)[:20]`. -/
def pack_header (user_from : Bytes) (user_to : Bytes := broadcastUid)
    (op_code : Nat := 0) (body_id : Nat := 0) (body_len : Nat := 0) :
    Except PyError Bytes :=
  if ¬(op_code = 0 ∨ op_code = 1 ∨ op_code = 2) then .error .valueError
  else if ¬(body_id ≤ 255) then .error .valueError
  else if ¬(body_len ≤ 2 ^ 64 - 1) then .error .valueError
  else .ok ((ljust user_from 20).take 20 ++ (ljust user_to 20).take 20 ++
    [⟨op_code % 256, Nat.mod_lt _ (by norm_num)⟩,
     ⟨body_id % 256, Nat.mod_lt _ (by norm_num)⟩] ++
    natToBytesBE 8 body_len ++ List.replicate 50 0)

/-- `unpack_header` from `core/protocol.py`: fails on inputs shorter than 100
bytes or with an opcode byte (offset 40) outside {0,1,2}; otherwise returns the
trimmed UIDs, opcode, `body_id` byte and big-endian `body_len`. -/
def unpack_header (data : Bytes) : Except PyError Header :=
  if data.length < 100 then .error .valueError
  else
    let h := data.take 100
    let op := ((h.drop 40).headD 0).val
    if ¬(op = 0 ∨ op = 1 ∨ op = 2) then .error .valueError
    else .ok
      { user_from := rstripZeros (h.take 20)
        user_to := rstripZeros ((h.drop 20).take 20)
        op_code := op
        body_id := ((h.drop 41).headD 0).val
        body_len := bytesToNatBE ((h.drop 42).take 8) }

/-- The decoded form of a 25-byte LCP response, as returned by
`unpack_response` in `core/protocol.py`. -/
structure RespFrame where
  status : Nat
  responder : Bytes
deriving DecidableEq, Repr

/-- `pack_response` from `core/protocol.py`: validates `status ∈ {0,1,2}` and
lays out `status ‖ responder.ljust(20)[:20] ‖ 4 zero bytes`
(`struct.pack('!B20s4x', ...)`). -/
def pack_response (status : Nat) (responder : Bytes) : Except PyError Bytes :=
  if ¬(status = 0 ∨ status = 1 ∨ status = 2) then .error .valueError
  else .ok ([⟨status % 256, Nat.mod_lt _ (by norm_num)⟩] ++
    (ljust responder 20).take 20 ++ List.replicate 4 0)

/-- `unpack_response` from `core/protocol.py`: fails when shorter than 25 bytes
or when the status byte is outside {0,1,2}; returns the status and the trimmed
responder UID. -/
def unpack_response (data : Bytes) : Except PyError RespFrame :=
  if data.length < 25 then .error .valueError
  else
    let status := (data.headD 0).val
    let responder := rstripZeros ((data.drop 1).take 20)
    if ¬(status = 0 ∨ status = 1 ∨ status = 2) then .error .valueError
    else .ok { status := status, responder := responder }

/-- `pack_message_body` from `core/protocol.py`: validates `body_id ∈ [0,255]`
and yields `body_id.to_bytes(8,'big') ‖ message`. -/
def pack_message_body (body_id : Nat) (message : Bytes) : Except PyError Bytes :=
  if ¬(body_id ≤ 255) then .error .valueError
  else .ok (natToBytesBE 8 body_id ++ message)

/-- `unpack_message_body` from `core/protocol.py`: fails on fewer than 8 bytes,
else splits into the big-endian 8-byte id and the remaining content. -/
def unpack_message_body (data : Bytes) : Except PyError (Nat × Bytes) :=
  if data.length < 8 then .error .valueError
  else .ok (bytesToNatBE (data.take 8), data.drop 8)

/-! ## Discovery (`core/discovery.py`) -/

/-- The value stored per peer in `Discovery.peers`:
`{'ip': str, 'last_seen': datetime}`. -/
structure PeerInfo where
  ip : String
  lastSeen : Nat
deriving DecidableEq, Repr

/-- The per-node constants of `Discovery.__init__` that the handlers read:
the trimmed local UID and the set of local IPv4 addresses. -/
structure DiscCtx where
  rawId : Bytes
  localIps : List String
deriving Repr

/-- `Discovery.peers`, a Python dict keyed by the padded 20-byte UID. -/
structure DiscState where
  peers : List (Bytes × PeerInfo)
deriving DecidableEq, Repr

/-- Python dict assignment `d[k] = v`: replace in place when the key exists,
append otherwise. -/
def dictSet {α β : Type} [DecidableEq α] (l : List (α × β)) (k : α) (v : β) :
    List (α × β) :=
  if l.any (fun e => decide (e.1 = k)) then
    l.map (fun e => if e.1 = k then (k, v) else e)
  else l ++ [(k, v)]

/-- Python dict lookup `d.get(k)`. -/
def dictGet {α β : Type} [DecidableEq α] (l : List (α × β)) (k : α) : Option β :=
  match l with
  | [] => none
  | e :: rest => if e.1 = k then some e.2 else dictGet rest k

/-- The same-address sweep both discovery handlers run before the upsert:
`for uid in list(self.peers): if peers[uid]['ip'] == peer_ip and uid != raw_peer: del peers[uid]`. -/
def evictSameIp (peers : List (Bytes × PeerInfo)) (peerIp : String)
    (rawPeer : Bytes) : List (Bytes × PeerInfo) :=
  peers.filter (fun e => ¬(e.2.ip = peerIp ∧ e.1 ≠ rawPeer))

/-- `Discovery.handle_echo`: unpack the header (failures are swallowed and
leave the state unchanged); drop echoes from local addresses or from the local
UID; send the status-0 response (`sendOk` is the oracle for whether
`sock.sendto` succeeded — on failure the handler returns before touching the
table); then evict same-address records and upsert the sender. -/
def handle_echo (ctx : DiscCtx) (st : DiscState) (data : Bytes) (addr : String)
    (sendOk : Bool) (now : Nat) : DiscState :=
  match unpack_header (data.take 100) with
  | .error _ => st
  | .ok hdr =>
    let rawId := hdr.user_from
    let rawPeer := ljust rawId 20
    let peerIp := addr
    if peerIp ∈ ctx.localIps ∨ rawId = ctx.rawId then st
    else if ¬ sendOk then st
    else
      { peers := dictSet (evictSameIp st.peers peerIp rawPeer) rawPeer
          ⟨peerIp, now⟩ }

/-- `Discovery.handle_response`: unpack the 25-byte response (failures leave
the state unchanged); drop non-zero statuses, local addresses and the local
UID; then evict same-address records and upsert the responder. -/
def handle_response (ctx : DiscCtx) (st : DiscState) (data : Bytes)
    (addr : String) (now : Nat) : DiscState :=
  match unpack_response (data.take 25) with
  | .error _ => st
  | .ok resp =>
    let respId := resp.responder
    let rawPeer := ljust respId 20
    let peerIp := addr
    if resp.status ≠ 0 ∨ peerIp ∈ ctx.localIps ∨ respId = ctx.rawId then st
    else
      { peers := dictSet (evictSameIp st.peers peerIp rawPeer) rawPeer
          ⟨peerIp, now⟩ }

/-- `Discovery.get_peers`: the snapshot handed to callers, filtering out every
record whose address is a local address. -/
def get_peers (ctx : DiscCtx) (st : DiscState) : List (Bytes × PeerInfo) :=
  st.peers.filter (fun e => ¬ e.2.ip ∈ ctx.localIps)

/-- Peer-table states reachable from the empty table of `Discovery.__init__`
by the two inbound handlers. -/
inductive DiscReachable (ctx : DiscCtx) : DiscState → Prop
  | init : DiscReachable ctx ⟨[]⟩
  | echo {s} (data : Bytes) (addr : String) (sendOk : Bool) (now : Nat) :
      DiscReachable ctx s → DiscReachable ctx (handle_echo ctx s data addr sendOk now)
  | response {s} (data : Bytes) (addr : String) (now : Nat) :
      DiscReachable ctx s → DiscReachable ctx (handle_response ctx s data addr now)

/-! ## Messaging (`core/messaging.py`) -/

/-- The identity fields `Messaging.__init__` derives from `user_id`:
`raw_id = user_id.rstrip(b'\x00')[:20]` and `user_id = raw_id.ljust(20, b'\x00')`. -/
structure MsgCtx where
  rawId : Bytes
  userId : Bytes
deriving Repr

/-- Build a `MsgCtx` the way `Messaging.__init__` does. -/
def MsgCtx.ofUserId (userId : Bytes) : MsgCtx :=
  let raw := (rstripZeros userId).take 20
  ⟨raw, ljust raw 20⟩

/-- The `recipient` string passed to `HistoryStore.append_message`:
either the literal `"*global*"` or the decoded local UID. -/
inductive Recipient where
  | global
  | selfUid (u : Bytes)
deriving DecidableEq, Repr

/-- One record appended to the history store.  Python decodes UID bytes and
formats filenames into `str`s; the embedding keeps the generating data
(UTF-8 bytes, or the timestamp/id pair of a generated
`archivo_<ts>_<id>.<ext>` name, which determines the string). -/
inductive HistEntry where
  | message (sender : Bytes) (recipient : Recipient) (content : Bytes) (ts : Nat)
  | fileDat (senderIp : String) (recipient : Bytes) (nameTs : Nat) (nameId : Nat) (ts : Nat)
  | fileBin (sender : Bytes) (recipient : Bytes) (nameTs : Nat) (nameId : Nat) (ts : Nat)
deriving DecidableEq, Repr

/-- Outcome of one iteration of the retry loop in `_send_and_wait`:
the awaited event fired (`ackSignalled`), `ev.wait` timed out (`noAck`),
or `sock.sendto` raised `socket.error` (`sendError`). -/
inductive Attempt where
  | ackSignalled
  | noAck
  | sendError
deriving DecidableEq, Repr

/-- The retry loop of `_send_and_wait` (`for attempt in range(retries)`), with
the per-attempt outcomes supplied as an oracle list (one entry per loop
iteration).  A `socket.error` on the final attempt raises `ConnectionError`;
earlier ones are swallowed.  Exhausting the loop raises `TimeoutError`. -/
def sendAttempts : List Attempt → Except PyError Unit
  | [] => .error .timeoutError
  | a :: rest =>
    match a with
    | .ackSignalled => .ok ()
    | .noAck => sendAttempts rest
    | .sendError =>
      if rest.isEmpty then .error .connectionError else sendAttempts rest

/-- `_send_and_wait`: look the recipient up in `discovery.get_peers()`
(`ValueError` when absent), then run the retry loop. -/
def send_and_wait (peers : List (Bytes × PeerInfo)) (recipient : Bytes)
    (attempts : List Attempt) : Except PyError Unit :=
  match dictGet peers recipient with
  | none => .error .valueError
  | some _ => sendAttempts attempts

/-- `Messaging.send`: pack the body and header, then `_send_and_wait` the
header and the body in turn.  The `except (TimeoutError, ConnectionError)`
clause calls `self.discovery.discover_peers()` before its `raise`; the
`Discovery` class defines `force_discover` but no `discover_peers`, so that
attribute lookup raises `AttributeError`, which replaces the original
exception.  `headerAttempts`/`bodyAttempts` are the oracle outcomes of the two
retry loops. -/
def send (ctx : MsgCtx) (peers : List (Bytes × PeerInfo)) (recipient : Bytes)
    (message : Bytes) (bodyId : Nat) (headerAttempts bodyAttempts : List Attempt) :
    Except PyError Unit :=
  match pack_message_body bodyId message with
  | .error e => .error e
  | .ok body =>
    match pack_header ctx.userId recipient 1 bodyId body.length with
    | .error e => .error e
    | .ok _ =>
      match send_and_wait peers recipient headerAttempts with
      | .error .timeoutError => .error .attributeError
      | .error .connectionError => .error .attributeError
      | .error e => .error e
      | .ok _ =>
        match send_and_wait peers recipient bodyAttempts with
        | .error .timeoutError => .error .attributeError
        | .error .connectionError => .error .attributeError
        | .error e => .error e
        | .ok _ => .ok ()

/-- What `Messaging.send_file` does before/while using the network, as
observable outputs: the announce header datagram, and the bytes written to the
TCP connection. -/
structure FileSendTrace where
  headerSent : Option Bytes
  streamed : Bytes
  result : Except PyError Unit
deriving Repr

/-- `Messaging.send_file`: resolve the peer (`ValueError` when absent), build
the announce header with `body_len = len(file_bytes)`, `_send_and_wait` it
(oracle `headerAttempts`), then over TCP send `body_id.to_bytes(8,'big')`
followed by `file_bytes` in chunks, half-close, and read a 25-byte response
(oracle `ackBytes`); status 0 and 1 succeed, status 2 raises
`ConnectionError`.  The `filename` argument is only printed, never
transmitted or validated. -/
def send_file (ctx : MsgCtx) (peers : List (Bytes × PeerInfo))
    (recipient : Bytes) (fileBytes : Bytes) (filenameUtf8 : Bytes)
    (bodyId : Nat) (headerAttempts : List Attempt) (ackBytes : Bytes) :
    FileSendTrace :=
  match dictGet peers recipient with
  | none => ⟨none, [], .error .valueError⟩
  | some _ =>
    match pack_header ctx.userId recipient 2 bodyId fileBytes.length with
    | .error e => ⟨none, [], .error e⟩
    | .ok hdr =>
      match send_and_wait peers recipient headerAttempts with
      | .error e => ⟨some hdr, [], .error e⟩
      | .ok _ =>
        let streamed := natToBytesBE 8 bodyId ++ fileBytes
        if ackBytes.length ≠ 25 then ⟨some hdr, streamed, .error .connectionError⟩
        else
          match unpack_response ackBytes with
          | .error e => ⟨some hdr, streamed, .error e⟩
          | .ok resp =>
            if resp.status = 0 ∨ resp.status = 1 then ⟨some hdr, streamed, .ok ()⟩
            else ⟨some hdr, streamed, .error .connectionError⟩

/-- Modelled from the spec (§4.7 step 2, §6 "File body"), for comparison with
the code: the body `send_file` is claimed to construct and stream,
`8B(body_id) ‖ 2B(filename_len, big-endian) ‖ filename_utf8 ‖ file_bytes`. -/
def specFileBody (bodyId : Nat) (filenameUtf8 : Bytes) (fileBytes : Bytes) : Bytes :=
  natToBytesBE 8 bodyId ++ natToBytesBE 2 filenameUtf8.length ++ filenameUtf8 ++ fileBytes

/-- Observable outcome of `_handle_tcp_file_transfer` on one inbound
connection: the pending-header table afterwards, the history afterwards, the
status byte of the response sent back on the stream (if any), and the file
written to disk (its generated `archivo_<ts>_<id>.dat` name and content). -/
structure TcpResult where
  pending : List (Nat × Header)
  history : List HistEntry
  sentStatus : Option Nat
  savedFile : Option (Nat × Nat × Bytes)
deriving DecidableEq, Repr

/-- `Messaging._handle_tcp_file_transfer`.  `stream` is the oracle for the
bytes readable from the accepted socket before the sender half-closes; a
`recv_exact` past its end raises `ConnectionError`, which the `except` clause
answers with a status-2 response.  Faithful details: the pending header is
consumed before any further check; `body_len <= 0` answers status 2; in the
source's receive loop `body.extend(chunk)` sits after a `raise` and is
unreachable, so the accumulated `body` (and hence the saved file) is always
empty; the connection's remote address `addr` is never compared with anything
and is only recorded as the history `sender`. -/
def handle_tcp_file_transfer (ctx : MsgCtx) (pending : List (Nat × Header))
    (history : List HistEntry) (stream : Bytes) (addr : String) (ts : Nat) :
    TcpResult :=
  if stream.length < 8 then ⟨pending, history, some 2, none⟩
  else
    let fileId := bytesToNatBE (stream.take 8)
    match dictGet pending fileId with
    | none => ⟨pending, history, some 2, none⟩
    | some hdr =>
      let pending' := pending.filter (fun e => ¬ e.1 = fileId)
      let bodyLen := hdr.body_len
      if bodyLen = 0 then ⟨pending', history, some 2, none⟩
      else if (stream.drop 8).length < bodyLen then ⟨pending', history, some 2, none⟩
      else
        let body : Bytes := []
        ⟨pending', history ++ [.fileDat addr ctx.rawId ts (fileId % 256) ts],
          some 0, some (ts, fileId % 256, body)⟩

/-- `pack_response` specialised to the statuses the receive paths emit
(0, 1, 2 — all valid, so packing cannot fail). -/
def packResponseBytes (status : Nat) (uid : Bytes) : Bytes :=
  match pack_response status uid with
  | .ok b => b
  | .error _ => []

/-- Observable outcome of one iteration of `Messaging.recv_loop` on a single
datagram: responses sent back to the source address, the `(header, body)` pair
put on `_message_queue` (if any), the pending-header table afterwards, the
UID whose AckWaiter was signalled (if any), and whether the datagram was
forwarded to `discovery.handle_echo` / `discovery.handle_response`. -/
structure RecvResult where
  sent : List Bytes
  queued : Option (Header × Bytes)
  pending : List (Nat × Header)
  ackSignalledTo : Option Bytes
  discEcho : Bool
  discResp : Bool
deriving DecidableEq, Repr

/-- One iteration of `Messaging.recv_loop` for datagram `data` from `addr`.
`acks` is the set of UIDs with a registered AckWaiter; `nextDatagram` is the
oracle for the follow-up `recvfrom` that reads a text body (`none` models
`socket.timeout`, an empty chunk models a closed connection, whose
`ConnectionError` the outer `except` answers with status 2).  The pending
entry's timestamp (used only by the janitor) is not modelled. -/
def recv_step (ctx : MsgCtx) (acks : List Bytes) (pending : List (Nat × Header))
    (data : Bytes) (nextDatagram : Option Bytes) : RecvResult :=
  if data.length = 0 then ⟨[], none, pending, none, false, false⟩
  else if data.length = 25 then
    match unpack_response data with
    | .error _ => ⟨[], none, pending, none, false, false⟩
    | .ok resp =>
      if resp.status = 0 ∧ rstripZeros resp.responder ∈ acks then
        ⟨[], none, pending, some (rstripZeros resp.responder), false, false⟩
      else ⟨[], none, pending, none, false, true⟩
  else if data.length < 100 then ⟨[], none, pending, none, false, false⟩
  else
    match unpack_header (data.take 100) with
    | .error _ => ⟨[], none, pending, none, false, false⟩
    | .ok hdr =>
      if hdr.op_code = 0 ∧ hdr.user_to = broadcastUid then
        ⟨[], none, pending, none, true, false⟩
      else
        let myId := rstripSpaces ctx.rawId
        let toId := rstripSpaces hdr.user_to
        let isForMe := toId = myId
        let isBroadcast := toId = broadcastUid
        if (hdr.op_code = 1 ∨ hdr.op_code = 2) ∧ (isForMe ∨ isBroadcast) then
          let ack := packResponseBytes 0 ctx.userId
          if hdr.op_code = 1 then
            match nextDatagram with
            | none =>
              ⟨[ack, packResponseBytes 2 ctx.userId], none, pending, none, false, false⟩
            | some chunk =>
              if chunk.length = 0 then
                ⟨[ack, packResponseBytes 2 ctx.userId], none, pending, none, false, false⟩
              else ⟨[ack, ack], some (hdr, chunk), pending, none, false, false⟩
          else
            if isBroadcast then
              ⟨[ack, packResponseBytes 1 ctx.userId], none, pending, none, false, false⟩
            else ⟨[ack], none, dictSet pending hdr.body_id hdr, none, false, false⟩
        else ⟨[], none, pending, none, false, false⟩

/-- `Messaging._handle_message_or_file` on a queue entry: for `op=1`, unpack
the body (failures are caught and nothing is recorded) and append a message
record whose recipient is `"*global*"` when `user_to` is the broadcast UID,
else the local UID; for `op=2`, drop broadcasts, else save `body[8:]` as
`archivo_<ts>_<id>.bin` and append a file record.  Returns the new history and
the saved file (name data and content), if any. -/
def handle_message_or_file (ctx : MsgCtx) (hdr : Header) (body : Bytes)
    (history : List HistEntry) (ts : Nat) :
    List HistEntry × Option (Nat × Nat × Bytes) :=
  let peerId := rstripZeros hdr.user_from
  let myId := rstripSpaces ctx.rawId
  let toId := rstripSpaces hdr.user_to
  let isBroadcast := toId = broadcastUid
  if hdr.op_code = 1 then
    match unpack_message_body body with
    | .error _ => (history, none)
    | .ok (_, content) =>
      (history ++
        [.message peerId (if isBroadcast then .global else .selfUid myId) content ts],
       none)
  else
    if isBroadcast then (history, none)
    else
      let fid := bytesToNatBE (body.take 8)
      (history ++ [.fileBin peerId myId ts (fid % 256) ts],
       some (ts, fid % 256, body.drop 8))

/-- Equality of `Except` results is decidable componentwise. -/
instance {e a : Type} [DecidableEq e] [DecidableEq a] : DecidableEq (Except e a) :=
  fun x y =>
  match x, y with
  | .ok v, .ok w =>
    if h : v = w then .isTrue (by rw [h]) else .isFalse fun hc => h (Except.ok.inj hc)
  | .error v, .error w =>
    if h : v = w then .isTrue (by rw [h]) else .isFalse fun hc => h (Except.error.inj hc)
  | .ok _, .error _ => .isFalse fun hc => Except.noConfusion hc
  | .error _, .ok _ => .isFalse fun hc => Except.noConfusion hc

/-! ## Concrete example values used by witnesses and counterexamples -/

/-- Example node context: user `"a"` (byte 97), local addresses 127.0.0.1. -/
def exCtx : DiscCtx := ⟨[97], ["127.0.0.1"]⟩

/-- Example messaging identity for user `"a"`. -/
def exMsgCtx : MsgCtx := MsgCtx.ofUserId [97]

/-- Example peer table holding `"b"` (byte 98) at 10.0.0.5. -/
def exSt : DiscState := ⟨[(ljust [98] 20, ⟨"10.0.0.5", 0⟩)]⟩

/-- A concrete echo-request frame announcing user `"c"` (byte 99). -/
def exEchoFrame : Bytes :=
  ljust [99] 20 ++ broadcastUid ++ [0, 0] ++ natToBytesBE 8 0 ++
    List.replicate 50 0

/-- The decoded form of `exEchoFrame`. -/
def exEchoHdr : Header := ⟨[99], broadcastUid, 0, 0, 0⟩

/-! ## Supporting lemmas -/

theorem natToBytesBE_length (len n : Nat) : (natToBytesBE len n).length = len := by
  induction len generalizing n with
  | zero => rfl
  | succ k ih => simp [natToBytesBE, ih]

theorem bytesToNatBE_append_singleton (xs : Bytes) (b : Byte) :
    bytesToNatBE (xs ++ [b]) = 256 * bytesToNatBE xs + b.val := by
  simp [bytesToNatBE, List.foldl_append]

theorem bytesToNatBE_natToBytesBE (len n : Nat) :
    bytesToNatBE (natToBytesBE len n) = n % 256 ^ len := by
  induction len generalizing n with
  | zero => simp [natToBytesBE, bytesToNatBE, Nat.mod_one]
  | succ k ih =>
    rw [natToBytesBE, bytesToNatBE_append_singleton, ih]
    show 256 * (n / 256 % 256 ^ k) + n % 256 = n % 256 ^ (k + 1)
    rw [pow_succ' 256 k, Nat.mod_mul]
    omega

theorem bytesToNatBE_natToBytesBE_of_lt {len n : Nat} (h : n < 256 ^ len) :
    bytesToNatBE (natToBytesBE len n) = n := by
  rw [bytesToNatBE_natToBytesBE, Nat.mod_eq_of_lt h]

theorem dropWhile_replicate_append (p : Byte → Bool) (k : Nat) (xs : Bytes)
    (h : p 0 = true) :
    List.dropWhile p (List.replicate k 0 ++ xs) = List.dropWhile p xs := by
  induction k with
  | zero => simp
  | succ k ih => simp [List.replicate_succ, List.dropWhile_cons, h, ih]

theorem rstripZeros_append_replicate (l : Bytes) (k : Nat) :
    rstripZeros (l ++ List.replicate k 0) = rstripZeros l := by
  unfold rstripZeros
  rw [List.reverse_append, List.reverse_replicate,
    dropWhile_replicate_append _ _ _ (by simp)]

theorem rstripZeros_ljust (l : Bytes) (n : Nat) :
    rstripZeros (ljust l n) = rstripZeros l :=
  rstripZeros_append_replicate l _

theorem ljust_length_of_le {l : Bytes} {n : Nat} (h : l.length ≤ n) :
    (ljust l n).length = n := by
  simp [ljust]; omega

theorem take_ljust_of_le {l : Bytes} {n : Nat} (h : l.length ≤ n) :
    (ljust l n).take n = ljust l n :=
  List.take_of_length_le (le_of_eq (ljust_length_of_le h))

theorem uidField_length (l : Bytes) : ((ljust l 20).take 20).length = 20 := by
  rw [List.length_take, ljust]
  simp
  omega

theorem headD_take (xs : Bytes) (n : Nat) (d : Byte) :
    (xs.take (n + 1)).headD d = xs.headD d := by
  cases xs <;> simp

theorem mem_dictSet {α β : Type} [DecidableEq α] {l : List (α × β)} {k : α}
    {v : β} {e : α × β} (he : e ∈ dictSet l k v) : e ∈ l ∨ e = (k, v) := by
  unfold dictSet at he
  split at he
  · rcases List.mem_map.mp he with ⟨a, ha, rfl⟩
    by_cases h' : a.1 = k
    · simp [h']
    · simp [h', ha]
  · rcases List.mem_append.mp he with h' | h'
    · exact Or.inl h'
    · simp at h'
      simp [h']

theorem dictSet_nodupkeys {α β : Type} [DecidableEq α] {l : List (α × β)}
    {k : α} {v : β} (h : (l.map Prod.fst).Nodup) :
    ((dictSet l k v).map Prod.fst).Nodup := by
  unfold dictSet
  split
  · rw [List.map_map]
    have heq : l.map (Prod.fst ∘ fun e => if e.1 = k then (k, v) else e) =
        l.map Prod.fst := by
      apply List.map_congr_left
      intro e _
      by_cases h' : e.1 = k <;> simp [h']
    rw [heq]; exact h
  · rename_i hc
    rw [List.map_append]
    have hk : k ∉ l.map Prod.fst := by
      intro hm
      rcases List.mem_map.mp hm with ⟨a, ha, rfl⟩
      exact hc (List.any_eq_true.mpr ⟨a, ha, by simp⟩)
    simp [List.nodup_append, h, hk]

theorem filter_nodupkeys {α β : Type} {l : List (α × β)} {p : α × β → Bool}
    (h : (l.map Prod.fst).Nodup) : ((l.filter p).map Prod.fst).Nodup :=
  h.sublist ((List.filter_sublist l).map Prod.fst)

theorem handle_echo_nodupkeys {ctx : DiscCtx} {st : DiscState} {data : Bytes}
    {addr : String} {sendOk : Bool} {now : Nat}
    (h : (st.peers.map Prod.fst).Nodup) :
    (((handle_echo ctx st data addr sendOk now).peers).map Prod.fst).Nodup := by
  unfold handle_echo
  split
  · exact h
  · dsimp only
    split
    · exact h
    · split
      · exact h
      · exact dictSet_nodupkeys (filter_nodupkeys h)

theorem handle_response_nodupkeys {ctx : DiscCtx} {st : DiscState} {data : Bytes}
    {addr : String} {now : Nat}
    (h : (st.peers.map Prod.fst).Nodup) :
    (((handle_response ctx st data addr now).peers).map Prod.fst).Nodup := by
  unfold handle_response
  split
  · exact h
  · dsimp only
    split
    · exact h
    · exact dictSet_nodupkeys (filter_nodupkeys h)

theorem unpack_header_concat (A B L R : Bytes) (o b : Byte)
    (hA : A.length = 20) (hB : B.length = 20) (hL : L.length = 8)
    (hR : R.length = 50) (hop : o.val = 0 ∨ o.val = 1 ∨ o.val = 2) :
    unpack_header (A ++ (B ++ ([o, b] ++ (L ++ R)))) =
      .ok ⟨rstripZeros A, rstripZeros B, o.val, b.val, bytesToNatBE L⟩ := by
  have hlen : (A ++ (B ++ ([o, b] ++ (L ++ R)))).length = 100 := by
    simp [hA, hB, hL, hR]
  have h100 : (A ++ (B ++ ([o, b] ++ (L ++ R)))).take 100 =
      A ++ (B ++ ([o, b] ++ (L ++ R))) :=
    List.take_of_length_le (le_of_eq hlen)
  have e1 : (A ++ (B ++ ([o, b] ++ (L ++ R)))).take 20 = A := List.take_left' hA
  have e2 : (A ++ (B ++ ([o, b] ++ (L ++ R)))).drop 20 = B ++ ([o, b] ++ (L ++ R)) :=
    List.drop_left' hA
  have e3 : ((A ++ (B ++ ([o, b] ++ (L ++ R)))).drop 20).take 20 = B := by
    rw [e2]; exact List.take_left' hB
  have e4 : (A ++ (B ++ ([o, b] ++ (L ++ R)))).drop 40 = [o, b] ++ (L ++ R) := by
    have h40 : (40 : Nat) = 20 + 20 := rfl
    rw [h40, ← List.drop_drop, e2]
    exact List.drop_left' hB
  have e5 : (A ++ (B ++ ([o, b] ++ (L ++ R)))).drop 41 = b :: (L ++ R) := by
    have h41 : (41 : Nat) = 40 + 1 := rfl
    rw [h41, ← List.drop_drop, e4]
    rfl
  have e6 : (A ++ (B ++ ([o, b] ++ (L ++ R)))).drop 42 = L ++ R := by
    have h42 : (42 : Nat) = 40 + 2 := rfl
    rw [h42, ← List.drop_drop, e4]
    rfl
  have e7 : ((A ++ (B ++ ([o, b] ++ (L ++ R)))).drop 42).take 8 = L := by
    rw [e6]; exact List.take_left' hL
  unfold unpack_header
  rw [hlen]
  rw [if_neg (by omega)]
  dsimp only
  rw [h100, e4]
  have hohead : ([o, b] ++ (L ++ R)).headD 0 = o := rfl
  rw [hohead, if_neg (not_not_intro hop), e1, e3, e5, e7]
  rfl

theorem unpack_response_concat (s : Byte) (C R4 : Bytes)
    (hC : C.length = 20) (hR : R4.length = 4)
    (hs : s.val = 0 ∨ s.val = 1 ∨ s.val = 2) :
    unpack_response ([s] ++ (C ++ R4)) = .ok ⟨s.val, rstripZeros C⟩ := by
  have hlen : ([s] ++ (C ++ R4)).length = 25 := by simp [hC, hR]
  have e1 : ([s] ++ (C ++ R4)).headD 0 = s := rfl
  have e2 : ([s] ++ (C ++ R4)).drop 1 = C ++ R4 := rfl
  have e3 : (([s] ++ (C ++ R4)).drop 1).take 20 = C := by
    rw [e2]; exact List.take_left' hC
  unfold unpack_response
  rw [hlen]
  rw [if_neg (by omega)]
  dsimp only
  rw [e1, e3, if_neg (not_not_intro hs)]

theorem headD_take_pos (xs : Bytes) {n : Nat} (h : 0 < n) (d : Byte) :
    (xs.take n).headD d = xs.headD d := by
  cases xs
  · simp
  · cases n
    · omega
    · simp

/-- C4: pack-then-unpack is the identity on all valid inputs for every frame
kind: headers (op ∈ {0,1,2}, body_id ≤ 255, body_len < 2^64, UIDs of at most
20 bytes — the data model's valid UID shape — read back trimmed), responses
(valid status, UID read back trimmed), and message bodies. -/
theorem roundtrip_all_frames :
    (∀ (uf ut : Bytes) (op bid blen : Nat),
      uf.length ≤ 20 → ut.length ≤ 20 →
      (op = 0 ∨ op = 1 ∨ op = 2) → bid ≤ 255 → blen < 2 ^ 64 →
      ∃ frame, pack_header uf ut op bid blen = .ok frame ∧
        unpack_header frame =
          .ok ⟨rstripZeros uf, rstripZeros ut, op, bid, blen⟩) ∧
    (∀ (st : Nat) (uid : Bytes), (st = 0 ∨ st = 1 ∨ st = 2) → uid.length ≤ 20 →
      ∃ frame, pack_response st uid = .ok frame ∧
        unpack_response frame = .ok ⟨st, rstripZeros uid⟩) ∧
    (∀ (bid : Nat) (payload : Bytes), bid ≤ 255 →
      ∃ body, pack_message_body bid payload = .ok body ∧
        unpack_message_body body = .ok (bid, payload)) := by
  refine ⟨?_, ?_, ?_⟩
  · intro uf ut op bid blen hf ht hop hbid hblen
    have hop256 : op % 256 = op := by rcases hop with rfl | rfl | rfl <;> rfl
    have hbid256 : bid % 256 = bid := Nat.mod_eq_of_lt (by omega)
    have hble : blen ≤ 2 ^ 64 - 1 := Nat.le_pred_of_lt hblen
    have hblen' : blen < 256 ^ 8 := by
      have : (256 : Nat) ^ 8 = 2 ^ 64 := by norm_num
      omega
    refine ⟨(ljust uf 20).take 20 ++ ((ljust ut 20).take 20 ++
      ([⟨op % 256, Nat.mod_lt _ (by norm_num)⟩,
        ⟨bid % 256, Nat.mod_lt _ (by norm_num)⟩] ++
       (natToBytesBE 8 blen ++ List.replicate 50 0))), ?_, ?_⟩
    · unfold pack_header
      rw [if_neg (not_not_intro hop), if_neg (not_not_intro hbid),
        if_neg (not_not_intro hble)]
      simp [List.append_assoc]
    · have key := unpack_header_concat ((ljust uf 20).take 20)
        ((ljust ut 20).take 20) (natToBytesBE 8 blen) (List.replicate 50 0)
        ⟨op % 256, Nat.mod_lt _ (by norm_num)⟩
        ⟨bid % 256, Nat.mod_lt _ (by norm_num)⟩
        (uidField_length uf) (uidField_length ut) (natToBytesBE_length 8 blen)
        (by simp)
        (by rcases hop with rfl | rfl | rfl <;> simp)
      rw [key]
      have r1 : rstripZeros ((ljust uf 20).take 20) = rstripZeros uf := by
        rw [take_ljust_of_le hf, rstripZeros_ljust]
      have r2 : rstripZeros ((ljust ut 20).take 20) = rstripZeros ut := by
        rw [take_ljust_of_le ht, rstripZeros_ljust]
      rw [r1, r2]
      have r5 : bytesToNatBE (natToBytesBE 8 blen) = blen :=
        bytesToNatBE_natToBytesBE_of_lt hblen'
      have r3 : (⟨op % 256, Nat.mod_lt _ (by norm_num)⟩ : Byte).val = op := hop256
      have r4 : (⟨bid % 256, Nat.mod_lt _ (by norm_num)⟩ : Byte).val = bid := hbid256
      rw [r3, r4, r5]
  · intro st uid hst hlen
    have hst256 : st % 256 = st := by rcases hst with rfl | rfl | rfl <;> rfl
    refine ⟨[⟨st % 256, Nat.mod_lt _ (by norm_num)⟩] ++
      ((ljust uid 20).take 20 ++ List.replicate 4 0), ?_, ?_⟩
    · unfold pack_response
      rw [if_neg (not_not_intro hst)]
      simp [List.append_assoc]
    · have key := unpack_response_concat
        ⟨st % 256, Nat.mod_lt _ (by norm_num)⟩ ((ljust uid 20).take 20)
        (List.replicate 4 0) (uidField_length uid) (by simp)
        (by rcases hst with rfl | rfl | rfl <;> simp)
      rw [key]
      have r1 : rstripZeros ((ljust uid 20).take 20) = rstripZeros uid := by
        rw [take_ljust_of_le hlen, rstripZeros_ljust]
      have r2 : (⟨st % 256, Nat.mod_lt _ (by norm_num)⟩ : Byte).val = st := hst256
      rw [r1, r2]
  · intro bid payload hbid
    refine ⟨natToBytesBE 8 bid ++ payload, ?_, ?_⟩
    · unfold pack_message_body
      rw [if_neg (not_not_intro hbid)]
    · have hlen : (natToBytesBE 8 bid ++ payload).length =
          8 + payload.length := by simp [natToBytesBE_length]
      unfold unpack_message_body
      rw [if_neg (by omega)]
      rw [List.take_left' (natToBytesBE_length 8 bid),
        List.drop_left' (natToBytesBE_length 8 bid),
        bytesToNatBE_natToBytesBE_of_lt (lt_of_le_of_lt hbid (by norm_num))]

/-- Witness for C4 at concrete inputs. -/
theorem roundtrip_all_frames_witness :
    (∃ frame, pack_header [97] [98, 99] 1 5 3 = .ok frame ∧
      unpack_header frame = .ok ⟨rstripZeros [97], rstripZeros [98, 99], 1, 5, 3⟩) ∧
    (∃ frame, pack_response 0 [97] = .ok frame ∧
      unpack_response frame = .ok ⟨0, rstripZeros [97]⟩) ∧
    (∃ body, pack_message_body 5 [1, 2] = .ok body ∧
      unpack_message_body body = .ok (5, [1, 2])) :=
  ⟨roundtrip_all_frames.1 [97] [98, 99] 1 5 3 (by decide) (by decide)
      (by decide) (by decide) (by decide),
   roundtrip_all_frames.2.1 0 [97] (by decide) (by decide),
   roundtrip_all_frames.2.2 5 [1, 2] (by decide)⟩

/-- C5: `unpack_header` fails exactly when the input is shorter than 100 bytes
or the opcode byte at offset 40 is outside {0,1,2}; on every other input it
returns the zero-trimmed UIDs, the opcode, the `body_id` byte and the 8-byte
big-endian `body_len`, independently of the contents of the 50 reserved
bytes (the returned fields read nothing past offset 50). -/
theorem unpack_header_contract (data : Bytes) :
    (exceptOk (unpack_header data) = true ↔
      (100 ≤ data.length ∧
        (((data.drop 40).headD 0).val = 0 ∨ ((data.drop 40).headD 0).val = 1 ∨
          ((data.drop 40).headD 0).val = 2))) ∧
    (100 ≤ data.length →
      (((data.drop 40).headD 0).val = 0 ∨ ((data.drop 40).headD 0).val = 1 ∨
        ((data.drop 40).headD 0).val = 2) →
      unpack_header data = .ok
        ⟨rstripZeros (data.take 20), rstripZeros ((data.drop 20).take 20),
         ((data.drop 40).headD 0).val, ((data.drop 41).headD 0).val,
         bytesToNatBE ((data.drop 42).take 8)⟩) := by
  have b1 : (data.take 100).take 20 = data.take 20 := by
    simp [List.take_take]
  have b2 : ((data.take 100).drop 20).take 20 = (data.drop 20).take 20 := by
    rw [List.drop_take]
    simp [List.take_take]
  have b3 : ((data.take 100).drop 40).headD 0 = (data.drop 40).headD 0 := by
    rw [List.drop_take]
    exact headD_take_pos _ (by norm_num) _
  have b4 : ((data.take 100).drop 41).headD 0 = (data.drop 41).headD 0 := by
    rw [List.drop_take]
    exact headD_take_pos _ (by norm_num) _
  have b5 : ((data.take 100).drop 42).take 8 = (data.drop 42).take 8 := by
    rw [List.drop_take]
    simp [List.take_take]
  constructor
  · by_cases h100 : data.length < 100
    · rw [unpack_header, if_pos h100]
      constructor
      · intro h
        simp [exceptOk] at h
      · intro h
        exact absurd h.1 (by omega)
    · rw [unpack_header, if_neg h100]
      dsimp only
      rw [b3]
      by_cases hop : ((data.drop 40).headD 0).val = 0 ∨
          ((data.drop 40).headD 0).val = 1 ∨ ((data.drop 40).headD 0).val = 2
      · rw [if_neg (not_not_intro hop)]
        exact ⟨fun _ => ⟨by omega, hop⟩, fun _ => rfl⟩
      · rw [if_pos hop]
        constructor
        · intro h
          simp [exceptOk] at h
        · intro h
          exact absurd h.2 hop
  · intro h100 hop
    rw [unpack_header, if_neg (by omega)]
    dsimp only
    rw [b3, if_neg (not_not_intro hop), b1, b2, b4, b5]

/-- Witness for C5 at a concrete 100-byte input (opcode 0, non-zero reserved
byte at offset 99, so the reserved region is demonstrably ignored). -/
theorem unpack_header_contract_witness :
    100 ≤ (List.replicate 99 (0 : Byte) ++ [7]).length ∧
    unpack_header (List.replicate 99 (0 : Byte) ++ [7]) =
      .ok ⟨rstripZeros ((List.replicate 99 (0 : Byte) ++ [7]).take 20),
           rstripZeros (((List.replicate 99 (0 : Byte) ++ [7]).drop 20).take 20),
           (((List.replicate 99 (0 : Byte) ++ [7]).drop 40).headD 0).val,
           (((List.replicate 99 (0 : Byte) ++ [7]).drop 41).headD 0).val,
           bytesToNatBE (((List.replicate 99 (0 : Byte) ++ [7]).drop 42).take 8)⟩ :=
  ⟨by decide,
   (unpack_header_contract (List.replicate 99 (0 : Byte) ++ [7])).2
     (by decide) (by decide)⟩

theorem mem_upsert_same_ip {peers : List (Bytes × PeerInfo)} {addr : String}
    {k : Bytes} {now : Nat} {e : Bytes × PeerInfo}
    (he : e ∈ dictSet (evictSameIp peers addr k) k ⟨addr, now⟩)
    (hip : e.2.ip = addr) : e.1 = k := by
  rcases mem_dictSet he with h' | rfl
  · have hp := List.of_mem_filter h'
    simp only [decide_eq_true_eq] at hp
    by_contra hne
    exact hp ⟨hip, hne⟩
  · rfl

/-- C6: after an accepted echo-request or echo-reply upserts `(u, a)`, every
record in the peer table whose address is `a` carries the UID `u` (any other
record at the same address was evicted before the insert). -/
theorem upsert_evicts_same_address :
    (∀ (ctx : DiscCtx) (st : DiscState) (data : Bytes) (addr : String)
        (now : Nat) (hdr : Header),
      unpack_header (data.take 100) = .ok hdr →
      addr ∉ ctx.localIps → hdr.user_from ≠ ctx.rawId →
      ∀ e ∈ (handle_echo ctx st data addr true now).peers,
        e.2.ip = addr → e.1 = ljust hdr.user_from 20) ∧
    (∀ (ctx : DiscCtx) (st : DiscState) (data : Bytes) (addr : String)
        (now : Nat) (resp : RespFrame),
      unpack_response (data.take 25) = .ok resp →
      resp.status = 0 → addr ∉ ctx.localIps → resp.responder ≠ ctx.rawId →
      ∀ e ∈ (handle_response ctx st data addr now).peers,
        e.2.ip = addr → e.1 = ljust resp.responder 20) := by
  constructor
  · intro ctx st data addr now hdr hu h1 h2 e he hip
    have hcond : ¬(addr ∈ ctx.localIps ∨ hdr.user_from = ctx.rawId) := by
      push_neg
      exact ⟨h1, h2⟩
    simp only [handle_echo, hu, if_neg hcond] at he
    simp only [not_true, if_false, if_neg] at he
    exact mem_upsert_same_ip he hip
  · intro ctx st data addr now resp hu hst h1 h2 e he hip
    have hcond : ¬(resp.status ≠ 0 ∨ addr ∈ ctx.localIps ∨
        resp.responder = ctx.rawId) := by
      push_neg
      exact ⟨hst, h1, h2⟩
    simp only [handle_response, hu, if_neg hcond] at he
    exact mem_upsert_same_ip he hip

/-- Witness for C6 at concrete inputs: `"c"` announced from 10.0.0.5 while
`"b"` was recorded there; the surviving record at 10.0.0.5 is keyed by `"c"`. -/
theorem upsert_evicts_same_address_witness :
    ((ljust [99] 20, (⟨"10.0.0.5", 7⟩ : PeerInfo)) : Bytes × PeerInfo).1 =
      ljust exEchoHdr.user_from 20 :=
  upsert_evicts_same_address.1 exCtx exSt exEchoFrame "10.0.0.5" 7 exEchoHdr
    (by decide) (by decide) (by decide)
    (ljust [99] 20, ⟨"10.0.0.5", 7⟩) (by decide) (by decide)

/-- C7: in every reachable peer-table state, the snapshot returned by
`get_peers` contains no record at a local address and no two records sharing
the same UID. -/
theorem snapshot_invariant (ctx : DiscCtx) (s : DiscState)
    (h : DiscReachable ctx s) :
    (∀ e ∈ get_peers ctx s, e.2.ip ∉ ctx.localIps) ∧
    ((get_peers ctx s).map Prod.fst).Nodup := by
  constructor
  · intro e he
    have hp := List.of_mem_filter he
    simpa using hp
  · have key : (s.peers.map Prod.fst).Nodup := by
      induction h with
      | init => simp
      | echo data addr sendOk now _ ih => exact handle_echo_nodupkeys ih
      | response data addr now _ ih => exact handle_response_nodupkeys ih
    exact key.sublist ((List.filter_sublist _).map Prod.fst)

/-- Witness for C7: the state reached by one accepted echo has a snapshot with
no duplicate UIDs. -/
theorem snapshot_invariant_witness :
    ((get_peers exCtx (handle_echo exCtx ⟨[]⟩ exEchoFrame "10.0.0.5" true 7)).map
      Prod.fst).Nodup :=
  (snapshot_invariant exCtx (handle_echo exCtx ⟨[]⟩ exEchoFrame "10.0.0.5" true 7)
    (DiscReachable.echo exEchoFrame "10.0.0.5" true 7 DiscReachable.init)).2

/-- C8: when sending the status-0 echo response fails (`sendOk = false`), the
handler returns with the peer table unchanged — no same-address eviction and
no upsert. -/
theorem echo_send_failure_leaves_table :
    ∀ (ctx : DiscCtx) (st : DiscState) (data : Bytes) (addr : String)
      (now : Nat) (hdr : Header),
    unpack_header (data.take 100) = .ok hdr →
    addr ∉ ctx.localIps → hdr.user_from ≠ ctx.rawId →
    handle_echo ctx st data addr false now = st := by
  intro ctx st data addr now hdr hu h1 h2
  have hcond : ¬(addr ∈ ctx.localIps ∨ hdr.user_from = ctx.rawId) := by
    push_neg
    exact ⟨h1, h2⟩
  simp [handle_echo, hu, if_neg hcond]

/-- Witness for C8 at concrete inputs: the failed send leaves `"b"`'s record
alone even though `"c"` announced from the same address. -/
theorem echo_send_failure_leaves_table_witness :
    handle_echo exCtx exSt exEchoFrame "10.0.0.5" false 7 = exSt :=
  echo_send_failure_leaves_table exCtx exSt exEchoFrame "10.0.0.5" 7 exEchoHdr
    (by decide) (by decide) (by decide)

/-- C3 (code bug): with recipient `"b"` known in the peer table and all three
header-step retries ending without a matching ACK, `send` surfaces
`AttributeError` — raised by `self.discovery.discover_peers()`, a method the
`Discovery` class does not define (it defines `force_discover`) — instead of
re-raising the `TimeoutError` (the spec's AckTimeout) as the bare `raise` in
the same `except` clause intends. -/
theorem send_retry_exhaustion_attribute_error :
    send exMsgCtx [(ljust [98] 20, ⟨"10.0.0.2", 0⟩)] (ljust [98] 20)
      [104, 105] 0 [.noAck, .noAck, .noAck] [.ackSignalled] =
      .error .attributeError := by decide

/-- C9: a file announced with `body_len = 0` is never delivered — the handler
consumes the matching pending header and answers status 2 without saving a
file or appending a history record — even though `pack_header` accepts
`body_len = 0`. -/
theorem zero_body_len_announce_rejected :
    ∀ (ctx : MsgCtx) (pending : List (Nat × Header)) (history : List HistEntry)
      (stream : Bytes) (addr : String) (ts : Nat) (hdr : Header)
      (uf ut : Bytes) (bid : Nat),
    8 ≤ stream.length →
    dictGet pending (bytesToNatBE (stream.take 8)) = some hdr →
    hdr.body_len = 0 →
    bid ≤ 255 →
    (handle_tcp_file_transfer ctx pending history stream addr ts).sentStatus =
        some 2 ∧
    (handle_tcp_file_transfer ctx pending history stream addr ts).savedFile =
        none ∧
    (handle_tcp_file_transfer ctx pending history stream addr ts).history =
        history ∧
    (handle_tcp_file_transfer ctx pending history stream addr ts).pending =
        pending.filter (fun e => ¬ e.1 = bytesToNatBE (stream.take 8)) ∧
    exceptOk (pack_header uf ut 2 bid 0) = true := by
  intro ctx pending history stream addr ts hdr uf ut bid h8 hget hlen0 hbid
  have hpack : exceptOk (pack_header uf ut 2 bid 0) = true := by
    unfold pack_header
    rw [if_neg (by omega), if_neg (not_not_intro hbid), if_neg (by omega)]
    rfl
  refine ⟨?_, ?_, ?_, ?_, hpack⟩ <;>
    · unfold handle_tcp_file_transfer
      rw [if_neg (by omega)]
      dsimp only
      rw [hget]
      simp only [hlen0, if_pos]

/-- Witness for C9 at a concrete pending zero-length announce. -/
theorem zero_body_len_announce_rejected_witness :
    (handle_tcp_file_transfer exMsgCtx [(5, ⟨[99], [97], 2, 5, 0⟩)] []
        (natToBytesBE 8 5) "10.0.0.9" 42).sentStatus = some 2 ∧
    (handle_tcp_file_transfer exMsgCtx [(5, ⟨[99], [97], 2, 5, 0⟩)] []
        (natToBytesBE 8 5) "10.0.0.9" 42).savedFile = none ∧
    (handle_tcp_file_transfer exMsgCtx [(5, ⟨[99], [97], 2, 5, 0⟩)] []
        (natToBytesBE 8 5) "10.0.0.9" 42).history = [] ∧
    (handle_tcp_file_transfer exMsgCtx [(5, ⟨[99], [97], 2, 5, 0⟩)] []
        (natToBytesBE 8 5) "10.0.0.9" 42).pending =
      ([(5, ⟨[99], [97], 2, 5, 0⟩)] :
        List (Nat × Header)).filter
        (fun e => ¬ e.1 = bytesToNatBE ((natToBytesBE 8 5).take 8)) ∧
    exceptOk (pack_header [97] [98] 2 5 0) = true :=
  zero_body_len_announce_rejected exMsgCtx [(5, ⟨[99], [97], 2, 5, 0⟩)] []
    (natToBytesBE 8 5) "10.0.0.9" 42 ⟨[99], [97], 2, 5, 0⟩ [97] [98] 5
    (by decide) (by decide) (by decide) (by decide)

/-- C1 counterexample: a pending announce from `"c"` — currently known in the
PeerTable at 10.0.0.1 — is completed by a connection whose remote address is
10.0.0.9: the handler replies status 0 and appends a delivery record; no
status-2 address-mismatch rejection occurs. -/
theorem tcp_transfer_no_address_check_counterexample :
    dictGet [(ljust [99] 20, (⟨"10.0.0.1", 0⟩ : PeerInfo))] (ljust [99] 20) =
      some ⟨"10.0.0.1", 0⟩ ∧
    ("10.0.0.1" : String) ≠ "10.0.0.9" ∧
    (handle_tcp_file_transfer exMsgCtx [(5, ⟨[99], [97], 2, 5, 3⟩)] []
      (natToBytesBE 8 5 ++ [1, 2, 3]) "10.0.0.9" 42).sentStatus = some 0 ∧
    (handle_tcp_file_transfer exMsgCtx [(5, ⟨[99], [97], 2, 5, 3⟩)] []
      (natToBytesBE 8 5 ++ [1, 2, 3]) "10.0.0.9" 42).history =
      [.fileDat "10.0.0.9" exMsgCtx.rawId 42 5 42] := by decide

/-- C1 amended: the inbound TCP handler performs no verification of the
connection's remote address against the PeerTable: for every remote address, a
connection presenting the 8-byte id of a pending announce with positive
body_len and a stream carrying at least that many further bytes completes
with a status-0 response and an appended history record. -/
theorem tcp_transfer_ignores_remote_address :
    ∀ (ctx : MsgCtx) (pending : List (Nat × Header)) (history : List HistEntry)
      (stream : Bytes) (addr : String) (ts : Nat) (hdr : Header),
    8 ≤ stream.length →
    dictGet pending (bytesToNatBE (stream.take 8)) = some hdr →
    hdr.body_len ≠ 0 →
    hdr.body_len ≤ (stream.drop 8).length →
    (handle_tcp_file_transfer ctx pending history stream addr ts).sentStatus =
        some 0 ∧
    (handle_tcp_file_transfer ctx pending history stream addr ts).history =
      history ++
        [.fileDat addr ctx.rawId ts (bytesToNatBE (stream.take 8) % 256) ts] := by
  intro ctx pending history stream addr ts hdr h8 hget hne hfit
  constructor <;>
    · unfold handle_tcp_file_transfer
      rw [if_neg (by omega)]
      dsimp only
      rw [hget]
      simp only [if_neg hne, if_neg (not_lt.mpr hfit)]

/-- Witness for C1's amended statement at a concrete input. -/
theorem tcp_transfer_ignores_remote_address_witness :
    (handle_tcp_file_transfer exMsgCtx [(5, ⟨[99], [97], 2, 5, 3⟩)] []
        (natToBytesBE 8 5 ++ [1, 2, 3]) "10.0.0.7" 42).sentStatus = some 0 ∧
    (handle_tcp_file_transfer exMsgCtx [(5, ⟨[99], [97], 2, 5, 3⟩)] []
        (natToBytesBE 8 5 ++ [1, 2, 3]) "10.0.0.7" 42).history =
      [] ++ [.fileDat "10.0.0.7" exMsgCtx.rawId 42
        (bytesToNatBE ((natToBytesBE 8 5 ++ [1, 2, 3]).take 8) % 256) 42] :=
  tcp_transfer_ignores_remote_address exMsgCtx [(5, ⟨[99], [97], 2, 5, 3⟩)] []
    (natToBytesBE 8 5 ++ [1, 2, 3]) "10.0.0.7" 42 ⟨[99], [97], 2, 5, 3⟩
    (by decide) (by decide) (by decide) (by decide)

/-- C2 counterexample: `send_file` with 2 file bytes and a 65536-byte UTF-8
filename completes without any `BadFileName` failure; the announced header's
`body_len` is 2 (the file length), not the length of the claimed composite
body `8B(id) ‖ 2B(len) ‖ filename ‖ file`; and the streamed bytes are
`8B(id) ‖ file` — not that composite body. -/
theorem send_file_spec_counterexample :
    (List.replicate 65536 (97 : Byte)).length > 65535 ∧
    (send_file exMsgCtx [(ljust [98] 20, ⟨"10.0.0.2", 0⟩)] (ljust [98] 20)
      [97, 98] (List.replicate 65536 97) 7 [.ackSignalled]
      (packResponseBytes 0 (ljust [98] 20))).result = .ok () ∧
    ((send_file exMsgCtx [(ljust [98] 20, ⟨"10.0.0.2", 0⟩)] (ljust [98] 20)
      [97, 98] (List.replicate 65536 97) 7 [.ackSignalled]
      (packResponseBytes 0 (ljust [98] 20))).headerSent.map unpack_header) =
      some (.ok ⟨[97], [98], 2, 7, 2⟩) ∧
    (2 : Nat) ≠ (specFileBody 7 (List.replicate 65536 97) [97, 98]).length ∧
    (send_file exMsgCtx [(ljust [98] 20, ⟨"10.0.0.2", 0⟩)] (ljust [98] 20)
      [97, 98] (List.replicate 65536 97) 7 [.ackSignalled]
      (packResponseBytes 0 (ljust [98] 20))).streamed ≠
      specFileBody 7 (List.replicate 65536 97) [97, 98] := by
  have hspec : (specFileBody 7 (List.replicate 65536 (97 : Byte))
      [97, 98]).length = 65548 := by
    unfold specFileBody
    rw [List.length_append, List.length_append, List.length_append,
      natToBytesBE_length, natToBytesBE_length, List.length_replicate]
    rfl
  refine ⟨by rw [List.length_replicate]; omega, rfl, rfl, by omega, ?_⟩
  intro h
  have hl := congrArg List.length h
  rw [hspec] at hl
  have h10 : (send_file exMsgCtx [(ljust [98] 20, ⟨"10.0.0.2", 0⟩)]
      (ljust [98] 20) [97, 98] (List.replicate 65536 97) 7 [.ackSignalled]
      (packResponseBytes 0 (ljust [98] 20))).streamed.length = 10 := by decide
  omega

/-- C2 amended: for a known recipient and a header-step that gets its ACK, the
announced header is `pack_header(self, recipient, op=2, body_id,
body_len = len(file_bytes))`, the bytes streamed over the TCP connection are
exactly `8B(body_id) ‖ file_bytes`, and the filename takes no part: the whole
trace is unchanged under any substitution of the filename, so no length check
or `BadFileName` failure exists. -/
theorem send_file_streams_id_then_bytes :
    ∀ (ctx : MsgCtx) (peers : List (Bytes × PeerInfo)) (recipient : Bytes)
      (fileBytes fn fn' : Bytes) (bodyId : Nat) (info : PeerInfo)
      (hatts : List Attempt) (ackBytes : Bytes),
    dictGet peers recipient = some info →
    bodyId ≤ 255 →
    fileBytes.length ≤ 2 ^ 64 - 1 →
    sendAttempts hatts = .ok () →
    (∃ h, pack_header ctx.userId recipient 2 bodyId fileBytes.length = .ok h ∧
      (send_file ctx peers recipient fileBytes fn bodyId hatts
        ackBytes).headerSent = some h) ∧
    (send_file ctx peers recipient fileBytes fn bodyId hatts
        ackBytes).streamed = natToBytesBE 8 bodyId ++ fileBytes ∧
    send_file ctx peers recipient fileBytes fn bodyId hatts ackBytes =
      send_file ctx peers recipient fileBytes fn' bodyId hatts ackBytes := by
  intro ctx peers recipient fileBytes fn fn' bodyId info hatts ackBytes
    hget hbid hfit hok
  have hpack : pack_header ctx.userId recipient 2 bodyId fileBytes.length =
      .ok ((ljust ctx.userId 20).take 20 ++ (ljust recipient 20).take 20 ++
        [⟨2 % 256, Nat.mod_lt _ (by norm_num)⟩,
         ⟨bodyId % 256, Nat.mod_lt _ (by norm_num)⟩] ++
        natToBytesBE 8 fileBytes.length ++ List.replicate 50 0) := by
    unfold pack_header
    rw [if_neg (by omega), if_neg (not_not_intro hbid), if_neg (not_not_intro hfit)]
  refine ⟨⟨_, hpack, ?_⟩, ?_, rfl⟩ <;>
    · unfold send_file
      rw [hget]
      dsimp only
      rw [hpack]
      dsimp only
      rw [send_and_wait, hget, hok]
      dsimp only
      split <;> try rfl
      split <;> try rfl
      split <;> rfl

/-- Witness for C2's amended statement at a concrete input. -/
theorem send_file_streams_id_then_bytes_witness :
    (∃ h, pack_header exMsgCtx.userId (ljust [98] 20) 2 7
        (([97, 98] : Bytes)).length = .ok h ∧
      (send_file exMsgCtx [(ljust [98] 20, ⟨"10.0.0.2", 0⟩)] (ljust [98] 20)
        [97, 98] [102] 7 [.ackSignalled]
        (packResponseBytes 0 (ljust [98] 20))).headerSent = some h) ∧
    (send_file exMsgCtx [(ljust [98] 20, ⟨"10.0.0.2", 0⟩)] (ljust [98] 20)
        [97, 98] [102] 7 [.ackSignalled]
        (packResponseBytes 0 (ljust [98] 20))).streamed =
      natToBytesBE 8 7 ++ [97, 98] ∧
    send_file exMsgCtx [(ljust [98] 20, ⟨"10.0.0.2", 0⟩)] (ljust [98] 20)
        [97, 98] [102] 7 [.ackSignalled] (packResponseBytes 0 (ljust [98] 20)) =
      send_file exMsgCtx [(ljust [98] 20, ⟨"10.0.0.2", 0⟩)] (ljust [98] 20)
        [97, 98] [103] 7 [.ackSignalled] (packResponseBytes 0 (ljust [98] 20)) :=
  send_file_streams_id_then_bytes exMsgCtx
    [(ljust [98] 20, ⟨"10.0.0.2", 0⟩)] (ljust [98] 20) [97, 98] [102] [103] 7
    ⟨"10.0.0.2", 0⟩ [.ackSignalled] (packResponseBytes 0 (ljust [98] 20))
    (by decide) (by decide) (by decide) (by decide)

/-- C10: a datagram of ≥ 100 bytes with opcode 1 whose `user_to` is the
broadcast UID is accepted by the receive loop although it is not addressed to
the local UID: the header is ACKed with status 0, the body datagram is read
and ACKed with status 0, the pair is queued, and processing the queue entry
appends a message history record whose recipient is `"*global*"`. -/
theorem broadcast_message_accepted :
    ∀ (ctx : MsgCtx) (acks : List Bytes) (pending : List (Nat × Header))
      (data chunk : Bytes) (hdr : Header) (history : List HistEntry) (ts : Nat),
    100 ≤ data.length →
    unpack_header (data.take 100) = .ok hdr →
    hdr.op_code = 1 →
    hdr.user_to = broadcastUid →
    rstripSpaces hdr.user_to ≠ rstripSpaces ctx.rawId →
    chunk ≠ [] →
    8 ≤ chunk.length →
    recv_step ctx acks pending data (some chunk) =
      ⟨[packResponseBytes 0 ctx.userId, packResponseBytes 0 ctx.userId],
       some (hdr, chunk), pending, none, false, false⟩ ∧
    (handle_message_or_file ctx hdr chunk history ts).1 =
      history ++
        [.message (rstripZeros hdr.user_from) .global (chunk.drop 8) ts] := by
  intro ctx acks pending data chunk hdr history ts h100 hu hop hto hnotme hne h8
  have hbb : rstripSpaces broadcastUid = broadcastUid := by decide
  constructor
  · unfold recv_step
    rw [if_neg (by omega), if_neg (by omega), if_neg (by omega)]
    simp only [hu]
    rw [if_neg (by rw [hop]; simp)]
    rw [if_pos (by rw [hop, hto, hbb]; exact ⟨Or.inl rfl, Or.inr rfl⟩)]
    rw [if_pos hop]
    rw [if_neg (by rw [List.length_eq_zero]; exact hne)]
  · have hun : unpack_message_body chunk =
        .ok (bytesToNatBE (chunk.take 8), chunk.drop 8) := by
      unfold unpack_message_body
      rw [if_neg (by omega)]
    unfold handle_message_or_file
    rw [if_pos hop]
    rw [hun, hto, hbb]
    simp

/-- Witness for C10 at a concrete broadcast text datagram from `"c"`. -/
theorem broadcast_message_accepted_witness :
    recv_step exMsgCtx [] []
        (ljust [99] 20 ++ broadcastUid ++ [1, 4] ++ natToBytesBE 8 10 ++
          List.replicate 50 0)
        (some (natToBytesBE 8 4 ++ [104, 105])) =
      ⟨[packResponseBytes 0 exMsgCtx.userId, packResponseBytes 0 exMsgCtx.userId],
       some (⟨[99], broadcastUid, 1, 4, 10⟩, natToBytesBE 8 4 ++ [104, 105]),
       [], none, false, false⟩ ∧
    (handle_message_or_file exMsgCtx ⟨[99], broadcastUid, 1, 4, 10⟩
        (natToBytesBE 8 4 ++ [104, 105]) [] 3).1 =
      [] ++ [.message (rstripZeros ([99] : Bytes)) .global
        ((natToBytesBE 8 4 ++ [104, 105]).drop 8) 3] :=
  broadcast_message_accepted exMsgCtx [] []
    (ljust [99] 20 ++ broadcastUid ++ [1, 4] ++ natToBytesBE 8 10 ++
      List.replicate 50 0)
    (natToBytesBE 8 4 ++ [104, 105]) ⟨[99], broadcastUid, 1, 4, 10⟩ [] 3
    (by decide) (by decide) (by decide) (by decide) (by decide) (by decide)
    (by decide)
